import Mathlib

/-!
# Verification of the whiteboard client (`src/static/js/socket.js`)

A shallow embedding of the client-side collaboration code of the
`my-own-whiteboard` repository: the `SocketManager` payload decoration
(`emit`), the cursor throttler (`mouse:move` handler), the local drawing /
undo / redo / clear operations of the `Whiteboard` class, and the remote
reconciliation handlers (`draw_update`, `undo_update`, `redo_update`,
`clear_board`, `cursor_update`, `viewport_update`).

Drawing objects in fabric.js are distinguished by JavaScript object
identity; here they are modelled by an identifier (`Obj := Nat`).  The
`history` and `redoStack` JS arrays are modelled as Lean lists whose *last*
element is the top of the stack (`Array.prototype.push` appends at the end,
`Array.prototype.pop` removes the last element), so `push x = l ++ [x]`,
`pop = (l.getLast?, l.dropLast)`.
-/

/-- A Drawing Object, identified the way fabric.js does: by object
identity.  Each freshly created path / rect / circle (and each object
produced by `fabric.util.enlivenObjects`) is a new object. -/
abbrev Obj := Nat

/-- The viewport state kept by the whiteboard
(`this.viewportState = { zoom, pan: { x, y } }`).  The client only stores
and forwards these numbers, so their exact numeric type is irrelevant; we
use `Int`. -/
structure Viewport where
  zoom : Int
  panX : Int
  panY : Int
deriving Repr, DecidableEq

/-- An event emitted by the whiteboard through `this.socket.emit`
(before `SocketManager.emit` decorates it with `userName`). -/
inductive SockEvent where
  /-- Event `draw { room, path }`. -/
  | draw (room : String) (path : Obj)
  /-- Event `undo { room, objectData }`. -/
  | undoEv (room : String) (objectData : Obj)
  /-- Event `redo { room, objectData }`. -/
  | redoEv (room : String) (objectData : Obj)
  /-- Event `clear { room }`. -/
  | clearEv (room : String)
  /-- Event `cursor_move { room, x, y }`. -/
  | cursorMove (room : String) (x y : Int)
  /-- Event `viewport_update { room, viewport }`. -/
  | viewportEv (room : String) (vp : Viewport)
deriving Repr, DecidableEq

/-- The mutable state of a `Whiteboard` instance that the claims are
about: the fabric canvas contents (drawing objects and, separately, the
per-user cursor markers `cursor_${userName}`), the two history stacks, the
viewport, and the immutable `roomId` / socket user name. -/
structure WBState where
  /-- Field `this.roomId`, fixed at construction. -/
  roomId : String
  /-- Field `this.socket.userName` as read by the `cursor_update` filter. -/
  userName : String
  /-- Drawing objects currently on the canvas. -/
  canvas : List Obj
  /-- Cursor marker groups on the canvas, keyed by the user name embedded
  in their id `cursor_${userName}` (at most one per user in practice). -/
  cursors : List (String × Int × Int)
  /-- Field `this.viewportState`. -/
  viewport : Viewport
  /-- Field `this.history` (JS array, last element = top). -/
  history : List Obj
  /-- Field `this.redoStack` (JS array, last element = top). -/
  redoStack : List Obj
deriving Repr, DecidableEq

/-- The `Whiteboard` constructor: `this.history = []; this.redoStack = [];`
with an empty canvas and the initial viewport `{ zoom: 1, pan: {x:0,y:0} }`. -/
def initState (roomId userName : String) : WBState :=
  { roomId := roomId
    userName := userName
    canvas := []
    cursors := []
    viewport := { zoom := 1, panX := 0, panY := 0 }
    history := []
    redoStack := [] }

/-! ## SocketManager.emit -/

/-- JavaScript `a || b` on strings: the empty string is the only falsy
string value, so `'' || 'Anonymous' = 'Anonymous'`. -/
def jsOrElse (a b : String) : String :=
  if a = "" then b else a

/-- Function `SocketManager.emit`: the payload actually sent on the wire.  The
caller's `data` is modelled extensionally, as the partial map from field
names to values; the spread `{ ...data, userName: this.userName || 'Anonymous' }`
keeps every field of `data` and overwrites `userName`. -/
def emitPayload (userName : String) (data : String → Option String) :
    String → Option String :=
  fun k => if k = "userName" then some (jsOrElse userName "Anonymous") else data k

/-! ## Cursor throttler (`mouse:move` handler) -/

/-- A pointer-move sample: the `Date.now()` timestamp at which the
`mouse:move` event fires, and the pointer coordinates returned by
`canvas.getPointer`. -/
structure Sample where
  t : Nat
  x : Int
  y : Int
deriving Repr, DecidableEq

/-- An emitted `cursor_move` event: emission time and the (clamped)
coordinates it carries. -/
structure CursorEvent where
  t : Nat
  x : Int
  y : Int
deriving Repr, DecidableEq

/-- Constant `EMIT_INTERVAL = 50` (the 50 ms throttle). -/
def EMIT_INTERVAL : Nat := 50

/-- Expression `Math.min(Math.max(v, lo), hi)`. -/
def jsClamp (v lo hi : Int) : Int :=
  min (max v lo) hi

/-- One firing of the `mouse:move` handler: given the stored `lastEmit`
and the current sample, either emit a `cursor_move` with clamped
coordinates and update `lastEmit := now`, or do nothing.  The code tests
`now - lastEmit > EMIT_INTERVAL` with JS number subtraction, so the
comparison is over `Int`. -/
def throttleStep (width height : Int) (lastEmit : Nat) (s : Sample) :
    Nat × Option CursorEvent :=
  if (s.t : Int) - (lastEmit : Int) > (EMIT_INTERVAL : Int) then
    (s.t, some { t := s.t, x := jsClamp s.x 0 width, y := jsClamp s.y 0 height })
  else
    (lastEmit, none)

/-- Run the throttler over a stream of samples, collecting the emitted
`cursor_move` events.  `lastEmit` starts at `0` (`let lastEmit = 0`). -/
def throttleRun (width height : Int) (lastEmit : Nat) :
    List Sample → List CursorEvent
  | [] => []
  | s :: rest =>
    match throttleStep width height lastEmit s with
    | (le, none) => throttleRun width height le rest
    | (le, some e) => e :: throttleRun width height le rest

example : throttleRun 100 100 0 [⟨40, 5, 5⟩, ⟨60, 7, 7⟩, ⟨120, 300, -4⟩] =
    [⟨60, 7, 7⟩, ⟨120, 100, 0⟩] := by decide

/-! ## Local draw completion

Each local drawing gesture ends by pushing the completed object onto
`this.history` and emitting a `draw` event.  The three modes differ:
the `path:created` handler (free draw) does *not* reset `this.redoStack`,
while the `mouse:up` handlers of rectangle and circle mode set
`this.redoStack = []`. -/

/-- The `path:created` handler.  fabric has already added the freshly
drawn path to the canvas when this event fires; the handler itself runs
`this.history.push(path)` and emits `draw { room, path }`.  Note: it does
not touch `this.redoStack`. -/
def pathCreated (p : Obj) (s : WBState) : WBState × List SockEvent :=
  ({ s with canvas := s.canvas ++ [p], history := s.history ++ [p] },
   [SockEvent.draw s.roomId p])

/-- The rectangle-mode `mouse:up` handler: `this.history.push(rect);
this.redoStack = [];` then emit `draw`.  (The rect object itself was
added to the canvas by the `mouse:down` handler.) -/
def rectMouseUp (rect : Obj) (s : WBState) : WBState × List SockEvent :=
  ({ s with history := s.history ++ [rect], redoStack := [] },
   [SockEvent.draw s.roomId rect])

/-- The circle-mode `mouse:up` handler: `this.history.push(circle);
this.redoStack = [];` then emit `draw`.  (The circle object itself was
added to the canvas by the `mouse:down` handler.) -/
def circleMouseUp (circle : Obj) (s : WBState) : WBState × List SockEvent :=
  ({ s with history := s.history ++ [circle], redoStack := [] },
   [SockEvent.draw s.roomId circle])

/-! ## Local undo / redo / clear -/

/-- Method `Whiteboard.undo`: the JS guard `this.history.length > 0` holds
exactly when `history.getLast? = some removed` (the element `pop` would
return).  When it holds: pop `history`, push the object onto `redoStack`,
remove it from the canvas, emit `undo { room, objectData }`. -/
def undo (s : WBState) : WBState × List SockEvent :=
  match s.history.getLast? with
  | none => (s, [])
  | some removed =>
    ({ s with history := s.history.dropLast
              redoStack := s.redoStack ++ [removed]
              canvas := s.canvas.erase removed },
     [SockEvent.undoEv s.roomId removed])

/-- Method `Whiteboard.redo`: the guard `this.redoStack.length > 0` holds exactly
when `redoStack.getLast? = some restored`.  When it holds: pop
`redoStack`, push the object onto `history`, add it back to the canvas,
emit `redo { room, objectData }`. -/
def redo (s : WBState) : WBState × List SockEvent :=
  match s.redoStack.getLast? with
  | none => (s, [])
  | some restored =>
    ({ s with redoStack := s.redoStack.dropLast
              history := s.history ++ [restored]
              canvas := s.canvas ++ [restored] },
     [SockEvent.redoEv s.roomId restored])

/-- Method `Whiteboard.clear`: `this.canvas.clear()` removes every object from
the canvas (drawing objects and cursor markers alike) and
`this.socket.emit('clear', { room: this.roomId })`.  `this.history` and
`this.redoStack` are not touched. -/
def clear (s : WBState) : WBState × List SockEvent :=
  ({ s with canvas := [], cursors := [] },
   [SockEvent.clearEv s.roomId])

/-! ## Remote reconciliation handlers -/

/-- Method `Whiteboard.updateCursor`: remove the existing cursor group whose id
is `cursor_${data.userName}` (the first such object found), then add a
fresh cursor group at the received coordinates. -/
def updateCursor (userName : String) (x y : Int) (s : WBState) : WBState :=
  { s with cursors :=
      (s.cursors.eraseP (fun c => c.1 == userName)) ++ [(userName, x, y)] }

/-- The `cursor_update` handler: applies `updateCursor` only when
`data.room === this.roomId && data.userName !== this.socket.userName`. -/
def onCursorUpdate (room userName : String) (x y : Int) (s : WBState) : WBState :=
  if room = s.roomId ∧ userName ≠ s.userName then
    updateCursor userName x y s
  else s

/-- The `viewport_update` handler: when `data.room === this.roomId`,
store the received viewport and apply it to the canvas (zoom / pan are
render-only). -/
def onViewportUpdate (room : String) (vp : Viewport) (s : WBState) : WBState :=
  if room = s.roomId then { s with viewport := vp } else s

/-- The `draw_update` handler: when `data.room === this.roomId`, enliven
the received serialization into a fresh object, `canvas.add(obj)` and
`this.history.push(obj)`. -/
def onDrawUpdate (room : String) (p : Obj) (s : WBState) : WBState :=
  if room = s.roomId then
    { s with canvas := s.canvas ++ [p], history := s.history ++ [p] }
  else s

/-- The `undo_update` handler: when `data.room === this.roomId &&
this.history.length > 0`, pop the local `history`, push the popped object
onto `redoStack` and remove it from the canvas.  The received payload
carries no object reference that is used; the correlation is by stack
position. -/
def onUndoUpdate (room : String) (s : WBState) : WBState :=
  if room = s.roomId then
    match s.history.getLast? with
    | none => s
    | some removed =>
      { s with history := s.history.dropLast
               redoStack := s.redoStack ++ [removed]
               canvas := s.canvas.erase removed }
  else s

/-- The `redo_update` handler: when `data.room === this.roomId &&
this.redoStack.length > 0`, pop the local `redoStack`, push the popped
object onto `history` and add it back to the canvas. -/
def onRedoUpdate (room : String) (s : WBState) : WBState :=
  if room = s.roomId then
    match s.redoStack.getLast? with
    | none => s
    | some restored =>
      { s with redoStack := s.redoStack.dropLast
               history := s.history ++ [restored]
               canvas := s.canvas ++ [restored] }
  else s

/-- The `clear_board` handler is `() => { this.canvas.clear(); }`: it
binds no payload, so whatever room id the delivered event carries is
ignored, and the canvas is cleared unconditionally.  `history` and
`redoStack` are not touched. -/
def onClearBoard (_room : String) (s : WBState) : WBState :=
  { s with canvas := [], cursors := [] }

example : (pathCreated 7 (initState "r" "u")).1.history = [7] := by decide
example : (undo (pathCreated 7 (initState "r" "u")).1).1.history = [] := by decide

/-! ## Operation sequences and the reachability relation -/

/-- A sequence of completed free-draw gestures (`path:created` for each
object in turn). -/
def drawSeq (s : WBState) (objs : List Obj) : WBState :=
  objs.foldl (fun st o => (pathCreated o st).1) s

/-- Press the undo button `k` successive times. -/
def undoTimes (s : WBState) : Nat → WBState
  | 0 => s
  | k + 1 => undoTimes (undo s).1 k

/-- One step of the whiteboard client: a completed local draw gesture
(the freshly created fabric object is new, hence on neither stack), a
local undo / redo, or the receipt of a remote `draw_update` /
`undo_update` / `redo_update` event (an enlivened object is likewise a
fresh JS object). -/
inductive Step : WBState → WBState → Prop where
  | pathCreated (s : WBState) (p : Obj)
      (hfresh : p ∉ s.history ∧ p ∉ s.redoStack) :
      Step s (pathCreated p s).1
  | rectMouseUp (s : WBState) (p : Obj)
      (hfresh : p ∉ s.history ∧ p ∉ s.redoStack) :
      Step s (rectMouseUp p s).1
  | circleMouseUp (s : WBState) (p : Obj)
      (hfresh : p ∉ s.history ∧ p ∉ s.redoStack) :
      Step s (circleMouseUp p s).1
  | undo (s : WBState) : Step s (undo s).1
  | redo (s : WBState) : Step s (redo s).1
  | drawUpdate (s : WBState) (room : String) (p : Obj)
      (hfresh : p ∉ s.history ∧ p ∉ s.redoStack) :
      Step s (onDrawUpdate room p s)
  | undoUpdate (s : WBState) (room : String) : Step s (onUndoUpdate room s)
  | redoUpdate (s : WBState) (room : String) : Step s (onRedoUpdate room s)

/-- The states a whiteboard client can reach from its freshly constructed
state by local draw completions, local undo / redo, and receipt of remote
draw / undo / redo updates. -/
def Reachable (roomId userName : String) (s : WBState) : Prop :=
  Relation.ReflTransGen Step (initState roomId userName) s

/-- The stack invariant: no object occurs twice across the two stacks
(in particular `history` and `redoStack` are disjoint). -/
def StacksNodup (s : WBState) : Prop :=
  (s.history ++ s.redoStack).Nodup

/-- A concrete example state used by the witnesses: room `r1`, user
`alice`, a single drawn object `3` on the canvas and on `history`. -/
def exStateA : WBState :=
  { roomId := "r1"
    userName := "alice"
    canvas := [3]
    cursors := []
    viewport := { zoom := 1, panX := 0, panY := 0 }
    history := [3]
    redoStack := [] }

/-! ## Helper lemmas -/

/-- Clamping into `[0, hi]` lands in `[0, hi]` whenever `0 ≤ hi`. -/
theorem jsClamp_bounds (v hi : Int) (h : 0 ≤ hi) :
    0 ≤ jsClamp v 0 hi ∧ jsClamp v 0 hi ≤ hi :=
  ⟨le_min (le_max_right v 0) h, min_le_right _ _⟩

/-- Moving the last element of the left part to the end of the right part
is a permutation. -/
theorem perm_move_last (h r : List Obj) (x : Obj) :
    ((h ++ [x]) ++ r).Perm (h ++ (r ++ [x])) := by
  rw [List.append_assoc]
  exact List.Perm.append_left h List.perm_append_comm

/-- A list whose `getLast?` is `some x` splits as `dropLast ++ [x]`. -/
theorem eq_dropLast_append_of_getLast? {l : List Obj} {x : Obj}
    (h : l.getLast? = some x) : l = l.dropLast ++ [x] := by
  have hne : l ≠ [] := by
    intro hl
    rw [hl] at h
    simp at h
  have hx : l.getLast hne = x := by
    have hq := List.getLast?_eq_getLast l hne
    rw [h] at hq
    exact (Option.some.inj hq).symm
  rw [← hx]
  exact (List.dropLast_append_getLast hne).symm

/-- Every event the throttler emits is emitted strictly more than
`EMIT_INTERVAL` ms after the `lastEmit` value the run started with. -/
theorem throttleRun_gap_from_start (width height : Int) :
    ∀ (samples : List Sample) (lastEmit : Nat),
      ∀ e ∈ throttleRun width height lastEmit samples,
        (e.t : Int) - (lastEmit : Int) > (EMIT_INTERVAL : Int) := by
  intro samples
  induction samples with
  | nil =>
    intro lastEmit e he
    simp [throttleRun] at he
  | cons s rest ih =>
    intro lastEmit e he
    by_cases hc : (s.t : Int) - (lastEmit : Int) > (EMIT_INTERVAL : Int)
    · have hrun : throttleRun width height lastEmit (s :: rest) =
          { t := s.t, x := jsClamp s.x 0 width, y := jsClamp s.y 0 height } ::
            throttleRun width height s.t rest := by
        simp [throttleRun, throttleStep, hc]
      rw [hrun] at he
      rcases List.mem_cons.mp he with rfl | hmem
      · exact hc
      · have htail := ih s.t e hmem
        omega
    · have hrun : throttleRun width height lastEmit (s :: rest) =
          throttleRun width height lastEmit rest := by
        simp [throttleRun, throttleStep, hc]
      rw [hrun] at he
      exact ih lastEmit e he

/-- Successive throttled emissions are pairwise more than
`EMIT_INTERVAL` ms apart. -/
theorem throttleRun_pairwise (width height : Int) :
    ∀ (samples : List Sample) (lastEmit : Nat),
      (throttleRun width height lastEmit samples).Pairwise
        (fun a b => (b.t : Int) - (a.t : Int) > (EMIT_INTERVAL : Int)) := by
  intro samples
  induction samples with
  | nil =>
    intro lastEmit
    simp [throttleRun]
  | cons s rest ih =>
    intro lastEmit
    by_cases hc : (s.t : Int) - (lastEmit : Int) > (EMIT_INTERVAL : Int)
    · have hrun : throttleRun width height lastEmit (s :: rest) =
          { t := s.t, x := jsClamp s.x 0 width, y := jsClamp s.y 0 height } ::
            throttleRun width height s.t rest := by
        simp [throttleRun, throttleStep, hc]
      rw [hrun]
      refine List.Pairwise.cons ?_ (ih s.t)
      intro e hmem
      exact throttleRun_gap_from_start width height rest s.t e hmem
    · have hrun : throttleRun width height lastEmit (s :: rest) =
          throttleRun width height lastEmit rest := by
        simp [throttleRun, throttleStep, hc]
      rw [hrun]
      exact ih lastEmit

/-- Every emitted event is the clamped image of one of the input
samples, carrying that sample's timestamp. -/
theorem throttleRun_events_from_samples (width height : Int) :
    ∀ (samples : List Sample) (lastEmit : Nat),
      ∀ e ∈ throttleRun width height lastEmit samples,
        ∃ s ∈ samples, e.t = s.t ∧
          e.x = jsClamp s.x 0 width ∧ e.y = jsClamp s.y 0 height := by
  intro samples
  induction samples with
  | nil =>
    intro lastEmit e he
    simp [throttleRun] at he
  | cons s rest ih =>
    intro lastEmit e he
    by_cases hc : (s.t : Int) - (lastEmit : Int) > (EMIT_INTERVAL : Int)
    · have hrun : throttleRun width height lastEmit (s :: rest) =
          { t := s.t, x := jsClamp s.x 0 width, y := jsClamp s.y 0 height } ::
            throttleRun width height s.t rest := by
        simp [throttleRun, throttleStep, hc]
      rw [hrun] at he
      rcases List.mem_cons.mp he with rfl | hmem
      · exact ⟨s, List.mem_cons_self s rest, rfl, rfl, rfl⟩
      · obtain ⟨s0, hs0, hprop⟩ := ih s.t e hmem
        exact ⟨s0, List.mem_cons_of_mem s hs0, hprop⟩
    · have hrun : throttleRun width height lastEmit (s :: rest) =
          throttleRun width height lastEmit rest := by
        simp [throttleRun, throttleStep, hc]
      rw [hrun] at he
      obtain ⟨s0, hs0, hprop⟩ := ih lastEmit e he
      exact ⟨s0, List.mem_cons_of_mem s hs0, hprop⟩

/-- Completing a sequence of free-draw gestures appends the drawn objects
to `history`, in order. -/
theorem drawSeq_history (objs : List Obj) :
    ∀ s : WBState, (drawSeq s objs).history = s.history ++ objs := by
  induction objs with
  | nil =>
    intro s
    simp [drawSeq]
  | cons o rest ih =>
    intro s
    have hstep : drawSeq s (o :: rest) = drawSeq (pathCreated o s).1 rest := rfl
    rw [hstep, ih]
    simp [pathCreated]

/-- Pressing undo once per element of the suffix `l` of `history` peels
the whole suffix off, one object per press, leaving the prefix. -/
theorem undoTimes_history (l : List Obj) :
    ∀ (s : WBState) (h0 : List Obj),
      s.history = h0 ++ l → (undoTimes s l.length).history = h0 := by
  induction l using List.reverseRecOn with
  | nil =>
    intro s h0 h
    simpa [undoTimes] using h
  | append_singleton l' o ih =>
    intro s h0 h
    have hlast : s.history.getLast? = some o := by
      rw [h, ← List.append_assoc]
      exact List.getLast?_concat _
    have hpop : (undo s).1.history = h0 ++ l' := by
      simp only [undo, hlast]
      rw [h, ← List.append_assoc]
      exact List.dropLast_concat
    have hlen : (l' ++ [o]).length = l'.length + 1 := by simp
    rw [hlen]
    exact ih (undo s).1 h0 hpop

/-- Each step of the client preserves the no-duplicates property of the
combined `history ++ redoStack`. -/
theorem stacksNodup_step {s s' : WBState} (hstep : Step s s')
    (h : StacksNodup s) : StacksNodup s' := by
  have hpush : ∀ (hist redos : List Obj) (p : Obj),
      (hist ++ redos).Nodup → p ∉ hist → p ∉ redos →
      ((hist ++ [p]) ++ redos).Nodup := by
    intro hist redos p hn hp1 hp2
    rw [List.append_assoc, List.singleton_append, List.nodup_middle]
    exact List.Nodup.cons (by simp [hp1, hp2]) hn
  have hmoveHR : ∀ (hist redos : List Obj) (x : Obj),
      hist.getLast? = some x → (hist ++ redos).Nodup →
      (hist.dropLast ++ (redos ++ [x])).Nodup := by
    intro hist redos x hx hn
    have hsplit := eq_dropLast_append_of_getLast? hx
    rw [hsplit] at hn
    exact (perm_move_last hist.dropLast redos x).nodup hn
  have hmoveRH : ∀ (hist redos : List Obj) (x : Obj),
      redos.getLast? = some x → (hist ++ redos).Nodup →
      ((hist ++ [x]) ++ redos.dropLast).Nodup := by
    intro hist redos x hx hn
    have hsplit := eq_dropLast_append_of_getLast? hx
    rw [hsplit] at hn
    exact ((perm_move_last hist redos.dropLast x).symm).nodup hn
  cases hstep with
  | pathCreated p hfresh =>
    have h1 := hpush s.history s.redoStack p h hfresh.1 hfresh.2
    simpa [StacksNodup, pathCreated] using h1
  | rectMouseUp p hfresh =>
    have h0 : (s.history ++ ([] : List Obj)).Nodup := by
      simpa using h.of_append_left
    have h1 := hpush s.history [] p h0 hfresh.1 (by simp)
    simpa [StacksNodup, rectMouseUp] using h1
  | circleMouseUp p hfresh =>
    have h0 : (s.history ++ ([] : List Obj)).Nodup := by
      simpa using h.of_append_left
    have h1 := hpush s.history [] p h0 hfresh.1 (by simp)
    simpa [StacksNodup, circleMouseUp] using h1
  | undo =>
    match hx : s.history.getLast? with
    | none => simpa [StacksNodup, undo, hx] using h
    | some removed =>
      have h1 := hmoveHR s.history s.redoStack removed hx h
      simpa [StacksNodup, undo, hx] using h1
  | redo =>
    match hx : s.redoStack.getLast? with
    | none => simpa [StacksNodup, redo, hx] using h
    | some restored =>
      have h1 := hmoveRH s.history s.redoStack restored hx h
      simpa [StacksNodup, redo, hx] using h1
  | drawUpdate room p hfresh =>
    by_cases hr : room = s.roomId
    · have h1 := hpush s.history s.redoStack p h hfresh.1 hfresh.2
      simpa [StacksNodup, onDrawUpdate, hr] using h1
    · simpa [StacksNodup, onDrawUpdate, hr] using h
  | undoUpdate room =>
    by_cases hr : room = s.roomId
    · match hx : s.history.getLast? with
      | none => simpa [StacksNodup, onUndoUpdate, hr, hx] using h
      | some removed =>
        have h1 := hmoveHR s.history s.redoStack removed hx h
        simpa [StacksNodup, onUndoUpdate, hr, hx] using h1
    · simpa [StacksNodup, onUndoUpdate, hr] using h
  | redoUpdate room =>
    by_cases hr : room = s.roomId
    · match hx : s.redoStack.getLast? with
      | none => simpa [StacksNodup, onRedoUpdate, hr, hx] using h
      | some restored =>
        have h1 := hmoveRH s.history s.redoStack restored hx h
        simpa [StacksNodup, onRedoUpdate, hr, hx] using h1
    · simpa [StacksNodup, onRedoUpdate, hr] using h

/-! ## Claim theorems -/

/-- C1: the claim states that every completed local draw action clears
the `undone` stack (`redoStack`).  The rectangle and circle `mouse:up`
handlers do set `redoStack = []`, but the free-draw `path:created`
handler only pushes onto `history`: starting from a state with
`redoStack = [1]`, a completed free-draw stroke (fresh path `2`) leaves
`redoStack = [1] ≠ []` — the code contradicts the stated invariant for
the free-draw path. -/
theorem c1_pathCreated_leaves_redoStack :
    ((pathCreated 2 { exStateA with redoStack := [1] }).1).redoStack = [1] ∧
    ((rectMouseUp 2 { exStateA with redoStack := [1] }).1).redoStack = [] ∧
    ((circleMouseUp 2 { exStateA with redoStack := [1] }).1).redoStack = [] ∧
    ([1] : List Obj) ≠ [] := by
  exact ⟨rfl, rfl, rfl, by decide⟩

/-- C2 counterexample: a received `draw_update` for the client's own
room does modify the local `done` stack — it appends the enlivened
object to `history`. -/
theorem c2_drawUpdate_modifies_history :
    (onDrawUpdate "r1" 5 exStateA).history ≠ exStateA.history := by
  decide

/-- C2 (amended): on receipt of room-matching remote events the handlers
update the canvas and mirror the originating participant's stack
operations rather than leaving the stacks alone: `draw_update` appends
the object to `history` (leaving `redoStack` unchanged), `undo_update`
moves the top of `history` onto `redoStack`, `redo_update` moves the top
of `redoStack` back onto `history`, and `clear_board` clears the canvas
while leaving both stacks unchanged. -/
theorem c2_remote_handlers_stack_effects (s : WBState) (room : String) (p : Obj) :
    (room = s.roomId →
      (onDrawUpdate room p s).history = s.history ++ [p] ∧
      (onDrawUpdate room p s).redoStack = s.redoStack ∧
      (onDrawUpdate room p s).canvas = s.canvas ++ [p]) ∧
    (∀ removed, room = s.roomId → s.history.getLast? = some removed →
      (onUndoUpdate room s).history = s.history.dropLast ∧
      (onUndoUpdate room s).redoStack = s.redoStack ++ [removed] ∧
      (onUndoUpdate room s).canvas = s.canvas.erase removed) ∧
    (∀ restored, room = s.roomId → s.redoStack.getLast? = some restored →
      (onRedoUpdate room s).redoStack = s.redoStack.dropLast ∧
      (onRedoUpdate room s).history = s.history ++ [restored] ∧
      (onRedoUpdate room s).canvas = s.canvas ++ [restored]) ∧
    ((onClearBoard room s).history = s.history ∧
      (onClearBoard room s).redoStack = s.redoStack ∧
      (onClearBoard room s).canvas = []) := by
  refine ⟨?_, ?_, ?_, rfl, rfl, rfl⟩
  · intro hr
    simp [onDrawUpdate, hr]
  · intro removed hr hx
    simp [onUndoUpdate, hr, hx]
  · intro restored hr hx
    simp [onRedoUpdate, hr, hx]

/-- Witness for the amended C2 theorem at a concrete state: a remote
`undo_update` for room `r1` moves object `3` from `history` to
`redoStack`. -/
theorem c2_remote_handlers_stack_effects_witness :
    (onUndoUpdate "r1" exStateA).history = exStateA.history.dropLast ∧
    (onUndoUpdate "r1" exStateA).redoStack = exStateA.redoStack ++ [3] ∧
    (onUndoUpdate "r1" exStateA).canvas = exStateA.canvas.erase 3 :=
  (c2_remote_handlers_stack_effects exStateA "r1" 0).2.1 3 (by decide) (by decide)

/-- C3: the cursor throttler emits events pairwise separated by strictly
more than `EMIT_INTERVAL` (50) ms, and every emitted event carries the
timestamp and the clamped coordinates of the sample that was current at
emission time (intermediate samples produce nothing). -/
theorem c3_cursor_throttle (width height : Int) (lastEmit : Nat)
    (samples : List Sample) :
    (throttleRun width height lastEmit samples).Pairwise
      (fun a b => (b.t : Int) - (a.t : Int) > (EMIT_INTERVAL : Int)) ∧
    ∀ e ∈ throttleRun width height lastEmit samples,
      ∃ s ∈ samples, e.t = s.t ∧
        e.x = jsClamp s.x 0 width ∧ e.y = jsClamp s.y 0 height :=
  ⟨throttleRun_pairwise width height samples lastEmit,
   throttleRun_events_from_samples width height samples lastEmit⟩

/-- Witness for C3 at a concrete sample stream: the samples at 100 ms and
160 ms are emitted (the one at 130 ms is dropped), and the event at
160 ms carries the clamped coordinates of its sample. -/
theorem c3_cursor_throttle_witness :
    ∃ s ∈ ([⟨100, 1, 1⟩, ⟨130, 2, 2⟩, ⟨160, 3, 3⟩] : List Sample),
      (⟨160, 3, 3⟩ : CursorEvent).t = s.t ∧
      (⟨160, 3, 3⟩ : CursorEvent).x = jsClamp s.x 0 10 ∧
      (⟨160, 3, 3⟩ : CursorEvent).y = jsClamp s.y 0 10 :=
  (c3_cursor_throttle 10 10 0 [⟨100, 1, 1⟩, ⟨130, 2, 2⟩, ⟨160, 3, 3⟩]).2
    ⟨160, 3, 3⟩ (by decide)

/-- C4 counterexample: the `clear_board` handler binds no payload, so a
received `clear_board` event carrying a foreign room id (`r2` vs the
joined `r1`) still empties the canvas. -/
theorem c4_clearBoard_ignores_room :
    "r2" ≠ exStateA.roomId ∧
    (onClearBoard "r2" exStateA).canvas ≠ exStateA.canvas := by
  exact ⟨by decide, by decide⟩

/-- C4 (amended): `cursor_update`, `viewport_update`, `draw_update`,
`undo_update` and `redo_update` apply their effect only when the event's
room equals the joined room — on a mismatch the whole client state is
untouched — while `clear_board` empties the canvas unconditionally
(room scoping for it is left entirely to the relay). -/
theorem c4_room_filtering (s : WBState) (room userName : String)
    (x y : Int) (vp : Viewport) (p : Obj) (h : room ≠ s.roomId) :
    onCursorUpdate room userName x y s = s ∧
    onViewportUpdate room vp s = s ∧
    onDrawUpdate room p s = s ∧
    onUndoUpdate room s = s ∧
    onRedoUpdate room s = s ∧
    onClearBoard room s = { s with canvas := [], cursors := [] } := by
  refine ⟨?_, ?_, ?_, ?_, ?_, rfl⟩ <;>
    simp [onCursorUpdate, onViewportUpdate, onDrawUpdate, onUndoUpdate,
      onRedoUpdate, h]

/-- Witness for the amended C4 theorem: events for room `r9` leave the
`r1` client untouched, while `clear_board` still clears. -/
theorem c4_room_filtering_witness :
    onCursorUpdate "r9" "bob" 4 4 exStateA = exStateA ∧
    onViewportUpdate "r9" { zoom := 2, panX := 1, panY := 1 } exStateA = exStateA ∧
    onDrawUpdate "r9" 5 exStateA = exStateA ∧
    onUndoUpdate "r9" exStateA = exStateA ∧
    onRedoUpdate "r9" exStateA = exStateA ∧
    onClearBoard "r9" exStateA = { exStateA with canvas := [], cursors := [] } :=
  c4_room_filtering exStateA "r9" "bob" 4 4 { zoom := 2, panX := 1, panY := 1 } 5
    (by decide)

/-- C5: `Whiteboard.undo` is guarded by a nonempty `history`: with empty
`history` it changes nothing and emits nothing; with `removed` on top of
`history` it pops `history`, pushes `removed` onto `redoStack`, removes
it from the canvas and emits `undo { room, objectData: removed }`. -/
theorem c5_undo_spec (s : WBState) :
    (s.history = [] → undo s = (s, [])) ∧
    (∀ removed, s.history.getLast? = some removed →
      (undo s).1.history = s.history.dropLast ∧
      (undo s).1.redoStack = s.redoStack ++ [removed] ∧
      (undo s).1.canvas = s.canvas.erase removed ∧
      (undo s).2 = [SockEvent.undoEv s.roomId removed]) := by
  constructor
  · intro h
    simp [undo, h]
  · intro removed h
    simp [undo, h]

/-- Witness for C5 at a concrete state with `history = [3]`. -/
theorem c5_undo_spec_witness :
    (undo exStateA).1.history = exStateA.history.dropLast ∧
    (undo exStateA).1.redoStack = exStateA.redoStack ++ [3] ∧
    (undo exStateA).1.canvas = exStateA.canvas.erase 3 ∧
    (undo exStateA).2 = [SockEvent.undoEv exStateA.roomId 3] :=
  (c5_undo_spec exStateA).2 3 (by decide)

/-- C6: `k` completed free-draw gestures followed by `k` presses of undo
return the `done` stack (`history`) to exactly its previous value. -/
theorem c6_draw_undo_roundtrip (s : WBState) (objs : List Obj) :
    (undoTimes (drawSeq s objs) objs.length).history = s.history :=
  undoTimes_history objs (drawSeq s objs) s.history (drawSeq_history objs s)

/-- C7: in every state reachable from the freshly constructed client by
local draw completions, local undo / redo and receipt of remote
`draw_update` / `undo_update` / `redo_update` events, no Drawing Object
sits on both `history` and `redoStack` at once. -/
theorem c7_stacks_disjoint (roomId userName : String) (s : WBState)
    (h : Reachable roomId userName s) :
    ∀ o : Obj, ¬ (o ∈ s.history ∧ o ∈ s.redoStack) := by
  have hinv : StacksNodup s := by
    induction h with
    | refl => simp [StacksNodup, initState]
    | tail _ hstep ih => exact stacksNodup_step hstep ih
  intro o ho
  exact (List.nodup_append.mp hinv).2.2 ho.1 ho.2

/-- Witness for C7 along a concrete two-step trace: draw path `1`, then
undo it; afterwards `1` is not on both stacks. -/
theorem c7_stacks_disjoint_witness :
    ¬ ((1 : Obj) ∈ (undo (pathCreated 1 (initState "r1" "alice")).1).1.history ∧
       (1 : Obj) ∈ (undo (pathCreated 1 (initState "r1" "alice")).1).1.redoStack) :=
  c7_stacks_disjoint "r1" "alice" _
    (Relation.ReflTransGen.tail
      (Relation.ReflTransGen.single
        (Step.pathCreated (initState "r1" "alice") 1 (by decide)))
      (Step.undo _))
    1

/-- C8: every emitted `cursor_move` event carries coordinates clamped to
the canvas bounds: `0 ≤ x ≤ width` and `0 ≤ y ≤ height` (the canvas
dimensions are nonnegative). -/
theorem c8_cursor_coords_clamped (width height : Int)
    (hw : 0 ≤ width) (hh : 0 ≤ height) (lastEmit : Nat)
    (samples : List Sample) :
    ∀ e ∈ throttleRun width height lastEmit samples,
      0 ≤ e.x ∧ e.x ≤ width ∧ 0 ≤ e.y ∧ e.y ≤ height := by
  intro e he
  obtain ⟨s, _, _, hx, hy⟩ :=
    throttleRun_events_from_samples width height samples lastEmit e he
  obtain ⟨hx0, hx1⟩ := jsClamp_bounds s.x width hw
  obtain ⟨hy0, hy1⟩ := jsClamp_bounds s.y height hh
  rw [hx, hy]
  exact ⟨hx0, hx1, hy0, hy1⟩

/-- Witness for C8: an off-canvas sample at `(300, -5)` is emitted with
coordinates `(100, 0)`, inside the `100 × 80` canvas. -/
theorem c8_cursor_coords_clamped_witness :
    0 ≤ (⟨60, 100, 0⟩ : CursorEvent).x ∧
    (⟨60, 100, 0⟩ : CursorEvent).x ≤ 100 ∧
    0 ≤ (⟨60, 100, 0⟩ : CursorEvent).y ∧
    (⟨60, 100, 0⟩ : CursorEvent).y ≤ 80 :=
  c8_cursor_coords_clamped 100 80 (by decide) (by decide) 0 [⟨60, 300, -5⟩]
    ⟨60, 100, 0⟩ (by decide)

/-- C9: `SocketManager.emit` always sends a defined `userName` field,
equal to the stored name, or `"Anonymous"` when the stored name is the
empty string (the constructor's initial value), overriding any
caller-supplied `userName`; all other fields are forwarded unchanged. -/
theorem c9_emit_userName (userName : String) (data : String → Option String) :
    (emitPayload userName data "userName").isSome = true ∧
    emitPayload userName data "userName" =
      some (if userName = "" then "Anonymous" else userName) ∧
    ∀ k : String, k ≠ "userName" → emitPayload userName data k = data k := by
  refine ⟨?_, ?_, ?_⟩
  · simp [emitPayload]
  · simp [emitPayload, jsOrElse]
  · intro k hk
    simp [emitPayload, hk]

/-- Witness for C9: with an unset (empty) stored name, a `color` field of
the caller's data passes through unchanged. -/
theorem c9_emit_userName_witness :
    emitPayload "" (fun k => if k = "color" then some "red" else none) "color" =
      some "red" :=
  (c9_emit_userName "" (fun k => if k = "color" then some "red" else none)).2.2
    "color" (by decide)

/-- C10: `Whiteboard.clear` empties the canvas and emits
`clear { room }`, but leaves `history` and `redoStack` unchanged, so a
following undo on a previously nonempty `history` still pops the top
object and emits an `undo` event for it. -/
theorem c10_clear_frame (s : WBState) :
    (clear s).1.history = s.history ∧
    (clear s).1.redoStack = s.redoStack ∧
    (clear s).1.canvas = [] ∧
    (clear s).2 = [SockEvent.clearEv s.roomId] ∧
    (∀ removed, s.history.getLast? = some removed →
      (undo (clear s).1).1.history = s.history.dropLast ∧
      (undo (clear s).1).1.redoStack = s.redoStack ++ [removed] ∧
      (undo (clear s).1).2 = [SockEvent.undoEv s.roomId removed]) := by
  refine ⟨rfl, rfl, rfl, rfl, ?_⟩
  intro removed h
  simp [clear, undo, h]

/-- Witness for C10: clearing the `exStateA` board and then undoing still
pops object `3` and emits `undo`. -/
theorem c10_clear_frame_witness :
    (undo (clear exStateA).1).1.history = exStateA.history.dropLast ∧
    (undo (clear exStateA).1).1.redoStack = exStateA.redoStack ++ [3] ∧
    (undo (clear exStateA).1).2 = [SockEvent.undoEv exStateA.roomId 3] :=
  (c10_clear_frame exStateA).2.2.2.2 3 (by decide)
